import Mathlib

/-!
# Task Manager: state reconciliation and derived views

A shallow embedding of `frontend/src/App.jsx` (component `TodoApp`): the
handlers `apiCall`, `fetchTasks`, `fetchStats`, `addTask`, `toggleTask`,
`deleteTask`, `saveEdit`, and the derived values `isOverdue` and
`filteredTasks`.

Modelling conventions.

* The React state cells (`useState`) are the fields of `Store`.  One handler
  runs to completion before the next one starts, so the `tasks` captured by a
  handler and the `prev` handed to a functional `setTasks` updater are the same
  list.
* `fetch` is an external collaborator.  What it does on one call is an
  argument of the handler, of type `Remote α`, where `α` is the type of the
  JSON payload the endpoint returns.
* `localStorage` holds at most one entry, under the key `tasks`.  It is only
  ever written with `JSON.stringify` of a task list and read with
  `JSON.parse`; the model stores the list itself.  The handlers of the section
  `Handlers` take every access to `localStorage` to go through; the namespace
  `Fallible` gives the same handlers with an access that can throw.
* `Date.now()` and `new Date().toISOString()` are arguments of the handlers
  that read the clock.
* `String.prototype.toLowerCase` is an argument of `filteredTasks`.
* A string is a sequence of Unicode scalar values.  On such strings a search
  for a substring by UTF-16 code unit and one by scalar value find the same
  thing, so `includes` works on scalar values; `<` compares code units, and
  so does `jsLt`.
* Response bodies are typed: a 2xx body that parses is a value of the type the
  endpoint returns, and an id is an integer or a string.
-/

namespace TodoApp

/-! ## Strings as JavaScript sees them -/

/-- White space and line terminators, the characters `String.prototype.trim`
strips. -/
def isTrimChar (c : Char) : Bool :=
  let n := c.toNat
  n == 0x09 || n == 0x0A || n == 0x0B || n == 0x0C || n == 0x0D || n == 0x20 ||
  n == 0xA0 || n == 0x1680 || (0x2000 ≤ n && n ≤ 0x200A) || n == 0x2028 ||
  n == 0x2029 || n == 0x202F || n == 0x205F || n == 0x3000 || n == 0xFEFF

/-- The method `String.prototype.trim`. -/
def trim (s : String) : String :=
  ⟨((s.data.dropWhile isTrimChar).reverse.dropWhile isTrimChar).reverse⟩

/-- UTF-16 code units of one character. -/
def utf16 (c : Char) : List Nat :=
  if c.toNat < 0x10000 then [c.toNat]
  else [0xD800 + (c.toNat - 0x10000) / 0x400, 0xDC00 + (c.toNat - 0x10000) % 0x400]

/-- UTF-16 code units of a string: what JavaScript compares. -/
def codeUnits (s : String) : List Nat :=
  s.data.foldr (fun c acc => utf16 c ++ acc) []

/-- Lexicographic order on code-unit sequences. -/
def ltUnits : List Nat → List Nat → Bool
  | [], [] => false
  | [], _ :: _ => true
  | _ :: _, [] => false
  | a :: as, b :: bs => if a < b then true else if b < a then false else ltUnits as bs

/-- The operator `<` on two strings. -/
def jsLt (a b : String) : Bool := ltUnits (codeUnits a) (codeUnits b)

/-- The method `String.prototype.includes`: `needle` occurs in `hay` as a
contiguous run. -/
def includes (hay needle : String) : Bool :=
  hay.data.tails.any (fun u => needle.data.isPrefixOf u)

/-! ## Data model -/

/-- A task id: a number (`Date.now()`, or a numeric server id) or a string.
`===` never identifies a number with a string. -/
inductive TaskId
  | num (n : Int)
  | str (s : String)
  deriving DecidableEq, Repr

/-- A task record. `dueDate` is `none` for `null`. -/
structure Task where
  id : TaskId
  text : String
  completed : Bool
  priority : String
  dueDate : Option String
  createdAt : String
  deriving DecidableEq, Repr

/-- The stats object. -/
structure Stats where
  total : Int
  completed : Int
  pending : Int
  overdue : Int
  deriving DecidableEq, Repr

/-- A call handed to `fetch`: method, path and JSON body. -/
inductive Request
  | getTasks (filter : Option String) (search : Option String)
  | getStats
  | postTask (text : String) (priority : String) (dueDate : Option String)
  | putCompleted (id : TaskId) (completed : Bool)
  | putFields (id : Option TaskId) (text : String) (priority : String) (dueDate : Option String)
  | deleteTask (id : TaskId)
  deriving DecidableEq, Repr

/-- What one `fetch` and the reading of its body did.
* `ok data`: the response has a 2xx status and its body parses to `data`;
* `notOk status error`: the status is not 2xx and the body parses to a JSON
  object whose `error` field is the string `error` (`none` when absent);
* `networkFailure message`: `fetch` rejected with an `Error` of that message;
* `malformedBody message`: `response.json()` rejected with that message. -/
inductive Remote (α : Type)
  | ok (data : α)
  | notOk (status : Nat) (error : Option String)
  | networkFailure (message : String)
  | malformedBody (message : String)

/-- The component state, the `tasks` entry of `localStorage`, and the calls
handed to `fetch` so far. -/
structure Store where
  tasks : List Task
  newTask : String
  newTaskPriority : String
  newTaskDueDate : String
  editingTask : Option TaskId
  editText : String
  editPriority : String
  editDueDate : String
  filter : String
  searchTerm : String
  isLoading : Bool
  error : String
  stats : Stats
  localStorage : Option (List Task)
  sent : List Request
  deriving DecidableEq, Repr

/-- The value of `s || null` for a string `s`. -/
def orNull (s : String) : Option String := if s = "" then none else some s

/-- Truthiness of `t.dueDate`: neither `null` nor the empty string. -/
def dueDateSet (t : Task) : Bool :=
  match t.dueDate with
  | some d => d != ""
  | none => false

/-- The value of `t.dueDate < today` once `t.dueDate` is truthy. -/
def dueBefore (t : Task) (today : String) : Bool :=
  match t.dueDate with
  | some d => jsLt d today
  | none => false

/-! ## Handlers -/

/-- The function `apiCall`: the parsed body, or the `message` of the `Error`
it throws. -/
def apiCall {α : Type} (r : Remote α) : Except String α :=
  match r with
  | .ok data => .ok data
  | .notOk status error =>
    match error with
    | some e => if e = "" then .error ("HTTP " ++ toString status) else .error e
    | none => .error ("HTTP " ++ toString status)
  | .networkFailure message => .error message
  | .malformedBody message => .error message

/-- The handler `fetchTasks`. -/
def fetchTasks (s : Store) (r : Remote (List Task)) : Except String Store :=
  let s := { s with isLoading := true, error := "" }
  let body : Except String Store :=
    let s := { s with sent := s.sent ++ [Request.getTasks
      (if s.filter ≠ "all" then some s.filter else none)
      (if s.searchTerm ≠ "" then some s.searchTerm else none)] }
    tryCatch
      (do
        let data ← apiCall r
        pure { s with tasks := data })
      (fun _ => do
        let s := { s with error := "Failed to fetch tasks. Using offline mode." }
        match s.localStorage with
        | some savedTasks => pure { s with tasks := savedTasks }
        | none => pure s)
  match body with
  | .ok s => .ok { s with isLoading := false }
  | .error e => .error e

/-- The handler `fetchStats`; `today` is the value of
`new Date().toISOString().split('T')[0]`. -/
def fetchStats (s : Store) (today : String) (r : Remote Stats) : Except String Store :=
  let s := { s with sent := s.sent ++ [Request.getStats] }
  tryCatch
    (do
      let data ← apiCall r
      pure { s with stats := data })
    (fun _ => do
      let total : Int := s.tasks.length
      let completed : Int := (s.tasks.filter (fun t => t.completed)).length
      let pending := total - completed
      let overdue : Int :=
        (s.tasks.filter (fun t => dueDateSet t && dueBefore t today && !t.completed)).length
      pure { s with stats := { total := total, completed := completed,
                               pending := pending, overdue := overdue } })

/-- The handler `addTask`; `now` is `Date.now()` and `iso` is
`new Date().toISOString()`. -/
def addTask (s : Store) (now : Int) (iso : String) (r : Remote Task) : Except String Store :=
  if trim s.newTask = "" then pure s
  else
    let s1 := { s with sent := s.sent ++ [Request.postTask (trim s.newTask) s.newTaskPriority
      (orNull s.newTaskDueDate)] }
    tryCatch
      (do
        let newTaskFromServer ← apiCall r
        pure { s1 with tasks := newTaskFromServer :: s1.tasks, newTask := "",
                       newTaskPriority := "medium", newTaskDueDate := "", error := "" })
      (fun message => do
        let task : Task :=
          { id := TaskId.num now, text := trim s.newTask, completed := false,
            priority := s.newTaskPriority, dueDate := orNull s.newTaskDueDate,
            createdAt := iso }
        pure { s1 with error := "Failed to add task: " ++ message,
                       tasks := task :: s1.tasks,
                       localStorage := some (task :: s.tasks),
                       newTask := "", newTaskPriority := "medium", newTaskDueDate := "" })

/-- The handler `toggleTask`. -/
def toggleTask (s : Store) (id : TaskId) (r : Remote Task) : Except String Store :=
  match s.tasks.find? (fun t => t.id = id) with
  | none => pure s
  | some task =>
    let s1 := { s with sent := s.sent ++ [Request.putCompleted id (!task.completed)] }
    tryCatch
      (do
        let updatedTask ← apiCall r
        pure { s1 with tasks := s1.tasks.map (fun t => if t.id = id then updatedTask else t),
                       error := "" })
      (fun message => do
        let updatedTasks :=
          s.tasks.map (fun t => if t.id = id then { t with completed := !t.completed } else t)
        pure { s1 with error := "Failed to update task: " ++ message,
                       tasks := updatedTasks,
                       localStorage := some updatedTasks })

/-- The handler `deleteTask`. The body of a successful response is not read
beyond parsing. -/
def deleteTask (s : Store) (id : TaskId) (r : Remote Unit) : Except String Store :=
  let s1 := { s with sent := s.sent ++ [Request.deleteTask id] }
  tryCatch
    (do
      let _ ← apiCall r
      pure { s1 with tasks := s1.tasks.filter (fun t => t.id ≠ id), error := "" })
    (fun message => do
      let updatedTasks := s.tasks.filter (fun t => t.id ≠ id)
      pure { s1 with error := "Failed to delete task: " ++ message,
                     tasks := updatedTasks,
                     localStorage := some updatedTasks })

/-- The handler `saveEdit`. -/
def saveEdit (s : Store) (r : Remote Task) : Except String Store :=
  if trim s.editText = "" then pure s
  else
    let s1 := { s with sent := s.sent ++ [Request.putFields s.editingTask (trim s.editText)
      s.editPriority (orNull s.editDueDate)] }
    tryCatch
      (do
        let updatedTask ← apiCall r
        pure { s1 with
          tasks := s1.tasks.map (fun t => if some t.id = s.editingTask then updatedTask else t),
          editingTask := none, editText := "", editPriority := "medium", editDueDate := "",
          error := "" })
      (fun message => do
        let updatedTasks := s.tasks.map (fun t =>
          if some t.id = s.editingTask then
            { t with text := trim s.editText, priority := s.editPriority,
                     dueDate := orNull s.editDueDate }
          else t)
        pure { s1 with error := "Failed to update task: " ++ message,
                       tasks := updatedTasks,
                       localStorage := some updatedTasks,
                       editingTask := none, editText := "", editPriority := "medium",
                       editDueDate := "" })

/-! ## Derived views -/

/-- The function `isOverdue`; `today` is the value of
`new Date().toISOString().split('T')[0]`. -/
def isOverdue (task : Task) (today : String) : Bool :=
  if !dueDateSet task || task.completed then false
  else dueBefore task today

/-- The value `filteredTasks`; `toLowerCase` is the string method of that
name. -/
def filteredTasks (toLowerCase : String → String) (tasks : List Task)
    (filter searchTerm : String) : List Task :=
  tasks.filter (fun task =>
    let matchesFilter := filter == "all" ||
      (filter == "completed" && task.completed) ||
      (filter == "active" && !task.completed)
    let matchesSearch := includes (toLowerCase task.text) (toLowerCase searchTerm)
    matchesFilter && matchesSearch)

/-! ## Vocabulary of the statements -/

/-- The contract of `PUT /tasks/id` for a body that carries only `completed`:
`srv c` is what the call does when the value sent is `c`, and a successful
response is the task of that id with `completed` set to the value sent. -/
def HonoursToggle (id : TaskId) (srv : Bool → Remote Task) : Prop :=
  ∀ c u, srv c = Remote.ok u → u.id = id ∧ u.completed = c

/-- The task `tasks.find(t => t.id === id)`. -/
def findTask (tasks : List Task) (id : TaskId) : Option Task :=
  tasks.find? (fun t => t.id = id)

/-- A task counts as overdue on the day `today`: it has a due date, that date
is before `today` under `<`, and the task is not completed. -/
def Overdue (t : Task) (today : String) : Prop :=
  match t.dueDate with
  | some d => d ≠ "" ∧ jsLt d today = true ∧ t.completed = false
  | none => False

instance (t : Task) (today : String) : Decidable (Overdue t today) := by
  unfold Overdue
  split <;> infer_instance

/-- A task belongs to the filtered view: the filter is `all`, or it is
`completed` and the task is completed, or it is `active` and the task is not
completed; and the lower-cased text contains the lower-cased search term. -/
def Keeps (toLowerCase : String → String) (filter searchTerm : String) (t : Task) : Prop :=
  (filter = "all" ∨ (filter = "completed" ∧ t.completed = true) ∨
    (filter = "active" ∧ t.completed = false)) ∧
  (toLowerCase searchTerm).data <:+: (toLowerCase t.text).data

instance (toLowerCase : String → String) (filter searchTerm : String) (t : Task) :
    Decidable (Keeps toLowerCase filter searchTerm t) := by
  unfold Keeps
  infer_instance

/-- The ids of a task list are pairwise distinct. -/
def UniqueIds (tasks : List Task) : Prop := (tasks.map Task.id).Nodup

instance (tasks : List Task) : Decidable (UniqueIds tasks) := by
  unfold UniqueIds
  infer_instance

/-! ## Sample data -/

/-- A task as a server returns it. -/
def sampleTask : Task :=
  { id := TaskId.num 7, text := "Buy milk", completed := false, priority := "high",
    dueDate := some "2024-01-14", createdAt := "2024-01-10T08:00:00.000Z" }

/-- A store holding one task, with the add form and the edit form filled in. -/
def sampleStore : Store :=
  { tasks := [sampleTask], newTask := "  Walk the dog ", newTaskPriority := "low",
    newTaskDueDate := "", editingTask := some (TaskId.num 7), editText := " Buy oat milk ",
    editPriority := "medium", editDueDate := "2024-01-20", filter := "all", searchTerm := "",
    isLoading := false, error := "", stats := ⟨0, 0, 0, 0⟩, localStorage := none, sent := [] }

/-- The sample store with both text inputs holding white space only. -/
def blankStore : Store := { sampleStore with newTask := "   ", editText := "\t \n" }

/-- A server that applies the update to the sample task. -/
def sampleToggleServer (c : Bool) : Remote Task :=
  Remote.ok { sampleTask with completed := c }

/-- A server that is down. -/
def downServer (_ : Bool) : Remote Task := Remote.notOk 503 none

/-- Lower-casing of the letters `A` to `Z`, every other character kept. -/
def asciiLower (s : String) : String :=
  ⟨s.data.map (fun c => if 65 ≤ c.toNat ∧ c.toNat ≤ 90 then Char.ofNat (c.toNat + 32) else c)⟩

/-- A completed task with no due date. -/
def doneTask : Task :=
  { id := TaskId.num 3, text := "File Taxes", completed := true, priority := "medium",
    dueDate := none, createdAt := "2024-01-02T09:30:00.000Z" }

/-- The sample store after an earlier fallback wrote two tasks to
`localStorage`. -/
def cachedStore : Store :=
  { sampleStore with localStorage := some [doneTask, sampleTask], filter := "completed",
                     searchTerm := "milk" }

/-! ## Calendar days -/

/-- A day of the proleptic Gregorian calendar, as year, month and day of the
month. -/
structure CalendarDay where
  year : Nat
  month : Nat
  day : Nat
  deriving DecidableEq, Repr

/-- Leap years of the Gregorian calendar. -/
def isLeapYear (y : Nat) : Bool := y % 4 == 0 && (y % 100 != 0 || y % 400 == 0)

/-- The number of days of month `m` of year `y`; zero when `m` is no month. -/
def daysInMonth (y m : Nat) : Nat :=
  match m with
  | 1 => 31
  | 2 => if isLeapYear y then 29 else 28
  | 3 => 31
  | 4 => 30
  | 5 => 31
  | 6 => 30
  | 7 => 31
  | 8 => 31
  | 9 => 30
  | 10 => 31
  | 11 => 30
  | 12 => 31
  | _ => 0

/-- A day that exists and whose year has four digits: what a string of the
form `YYYY-MM-DD` can denote. -/
def CalendarDay.WellFormed (d : CalendarDay) : Prop :=
  d.year ≤ 9999 ∧ 1 ≤ d.month ∧ d.month ≤ 12 ∧ 1 ≤ d.day ∧ d.day ≤ daysInMonth d.year d.month

instance (d : CalendarDay) : Decidable d.WellFormed := by
  unfold CalendarDay.WellFormed
  infer_instance

/-- The decimal digit for the last digit of `n`. -/
def decimalDigit (n : Nat) : Char :=
  match n % 10 with
  | 0 => '0'
  | 1 => '1'
  | 2 => '2'
  | 3 => '3'
  | 4 => '4'
  | 5 => '5'
  | 6 => '6'
  | 7 => '7'
  | 8 => '8'
  | _ => '9'

/-- The ISO 8601 calendar date `YYYY-MM-DD` of a day. -/
def CalendarDay.iso (d : CalendarDay) : String :=
  ⟨[decimalDigit (d.year / 1000), decimalDigit (d.year / 100), decimalDigit (d.year / 10),
    decimalDigit d.year, '-', decimalDigit (d.month / 10), decimalDigit d.month, '-',
    decimalDigit (d.day / 10), decimalDigit d.day]⟩

/-- The number of days in the years before year `y`, from year zero on. -/
def daysBeforeYear : Nat → Nat
  | 0 => 0
  | y + 1 => daysBeforeYear y + (if isLeapYear y then 366 else 365)

/-- The number of days of year `y` in the months before month `m`. -/
def daysBeforeMonth (y : Nat) : Nat → Nat
  | 0 => 0
  | m + 1 => daysBeforeMonth y m + daysInMonth y m

/-- The position of a day on the time line: the count of days from the first
of January of year zero, which has position one. -/
def CalendarDay.ordinal (d : CalendarDay) : Nat :=
  daysBeforeYear d.year + daysBeforeMonth d.year d.month + d.day

/-! ## The handlers with a `localStorage` that can throw

The catch blocks of the handlers reach `localStorage` outside any `try` of
their own: `setItem` in `addTask`, `toggleTask`, `deleteTask` and `saveEdit`,
`getItem` followed by `JSON.parse` in `fetchTasks`. The handlers above take
these accesses to go through. The handlers of this section take what the access
does as an argument, and tell a handler that returns apart from one that an
exception escapes. When the access goes through they end as the handlers above
do (`fallible_agrees`). -/

/-- What the access to `localStorage` in a catch block does: it goes through,
or it throws an exception of the given message (the quota of the origin is
used up, storage is disabled, the stored string is not JSON). -/
inductive StorageAccess
  | succeeds
  | throws (message : String)
  deriving DecidableEq, Repr

/-- How a handler ends: it returns, or an exception of the given message
escapes it. `s` is the component state it leaves. -/
inductive Completion
  | returned (s : Store)
  | raised (s : Store) (message : String)
  deriving DecidableEq, Repr

/-- The component state a handler leaves. -/
def Completion.store : Completion → Store
  | .returned s => s
  | .raised s _ => s

namespace Fallible

/-- The handler `fetchTasks`; `a` is what `localStorage.getItem` and
`JSON.parse` do. The `finally` block runs on every path. -/
def fetchTasks (s : Store) (r : Remote (List Task)) (a : StorageAccess) : Completion :=
  let s0 := { s with isLoading := true, error := "" }
  let s1 := { s0 with sent := s0.sent ++ [Request.getTasks
    (if s0.filter ≠ "all" then some s0.filter else none)
    (if s0.searchTerm ≠ "" then some s0.searchTerm else none)] }
  match apiCall r with
  | .ok data => .returned { s1 with tasks := data, isLoading := false }
  | .error _ =>
    let s2 := { s1 with error := "Failed to fetch tasks. Using offline mode." }
    match a with
    | .throws e => .raised { s2 with isLoading := false } e
    | .succeeds =>
      match s2.localStorage with
      | some savedTasks => .returned { s2 with tasks := savedTasks, isLoading := false }
      | none => .returned { s2 with isLoading := false }

/-- The handler `addTask`; `a` is what `localStorage.setItem` does. The three
resets of the form follow `setItem` and do not run when it throws. -/
def addTask (s : Store) (now : Int) (iso : String) (r : Remote Task) (a : StorageAccess) :
    Completion :=
  if trim s.newTask = "" then .returned s
  else
    let s1 := { s with sent := s.sent ++ [Request.postTask (trim s.newTask) s.newTaskPriority
      (orNull s.newTaskDueDate)] }
    match apiCall r with
    | .ok newTaskFromServer =>
      .returned { s1 with tasks := newTaskFromServer :: s1.tasks, newTask := "",
                          newTaskPriority := "medium", newTaskDueDate := "", error := "" }
    | .error message =>
      let task : Task :=
        { id := TaskId.num now, text := trim s.newTask, completed := false,
          priority := s.newTaskPriority, dueDate := orNull s.newTaskDueDate,
          createdAt := iso }
      let s2 := { s1 with error := "Failed to add task: " ++ message,
                          tasks := task :: s1.tasks }
      match a with
      | .throws e => .raised s2 e
      | .succeeds =>
        .returned { s2 with localStorage := some (task :: s.tasks), newTask := "",
                            newTaskPriority := "medium", newTaskDueDate := "" }

/-- The handler `toggleTask`; `a` is what `localStorage.setItem` does. -/
def toggleTask (s : Store) (id : TaskId) (r : Remote Task) (a : StorageAccess) : Completion :=
  match s.tasks.find? (fun t => t.id = id) with
  | none => .returned s
  | some task =>
    let s1 := { s with sent := s.sent ++ [Request.putCompleted id (!task.completed)] }
    match apiCall r with
    | .ok updatedTask =>
      .returned { s1 with tasks := s1.tasks.map (fun t => if t.id = id then updatedTask else t),
                          error := "" }
    | .error message =>
      let updatedTasks :=
        s.tasks.map (fun t => if t.id = id then { t with completed := !t.completed } else t)
      let s2 := { s1 with error := "Failed to update task: " ++ message,
                          tasks := updatedTasks }
      match a with
      | .throws e => .raised s2 e
      | .succeeds => .returned { s2 with localStorage := some updatedTasks }

/-- The handler `deleteTask`; `a` is what `localStorage.setItem` does. -/
def deleteTask (s : Store) (id : TaskId) (r : Remote Unit) (a : StorageAccess) : Completion :=
  let s1 := { s with sent := s.sent ++ [Request.deleteTask id] }
  match apiCall r with
  | .ok _ => .returned { s1 with tasks := s1.tasks.filter (fun t => t.id ≠ id), error := "" }
  | .error message =>
    let updatedTasks := s.tasks.filter (fun t => t.id ≠ id)
    let s2 := { s1 with error := "Failed to delete task: " ++ message,
                        tasks := updatedTasks }
    match a with
    | .throws e => .raised s2 e
    | .succeeds => .returned { s2 with localStorage := some updatedTasks }

/-- The handler `saveEdit`; `a` is what `localStorage.setItem` does. The four
resets of the edit form follow `setItem` and do not run when it throws. -/
def saveEdit (s : Store) (r : Remote Task) (a : StorageAccess) : Completion :=
  if trim s.editText = "" then .returned s
  else
    let s1 := { s with sent := s.sent ++ [Request.putFields s.editingTask (trim s.editText)
      s.editPriority (orNull s.editDueDate)] }
    match apiCall r with
    | .ok updatedTask =>
      .returned { s1 with
        tasks := s1.tasks.map (fun t => if some t.id = s.editingTask then updatedTask else t),
        editingTask := none, editText := "", editPriority := "medium", editDueDate := "",
        error := "" }
    | .error message =>
      let updatedTasks := s.tasks.map (fun t =>
        if some t.id = s.editingTask then
          { t with text := trim s.editText, priority := s.editPriority,
                   dueDate := orNull s.editDueDate }
        else t)
      let s2 := { s1 with error := "Failed to update task: " ++ message,
                          tasks := updatedTasks }
      match a with
      | .throws e => .raised s2 e
      | .succeeds =>
        .returned { s2 with localStorage := some updatedTasks, editingTask := none,
                            editText := "", editPriority := "medium", editDueDate := "" }

end Fallible

/-- A handler whose fallback reaches `localStorage` with the access `a` ends
well: it returns when the access goes through, and the only exception that can
escape it is the one the access throws. -/
def EndsWell (res : Completion) (a : StorageAccess) : Prop :=
  (a = StorageAccess.succeeds → ∃ s', res = Completion.returned s') ∧
  (∀ st e, res = Completion.raised st e → a = StorageAccess.throws e)

/-! ## What `apiCall` and `includes` compute -/

theorem apiCall_ok_iff {α : Type} (r : Remote α) (d : α) :
    apiCall r = Except.ok d ↔ r = Remote.ok d := by
  cases r with
  | ok data => simp [apiCall]
  | notOk status error =>
    cases error with
    | none => simp [apiCall]
    | some e => by_cases he : e = "" <;> simp [apiCall, he]
  | networkFailure m => simp [apiCall]
  | malformedBody m => simp [apiCall]

/-- Either outcome of `apiCall`. -/
theorem apiCall_cases {α : Type} (r : Remote α) :
    (∃ d, r = Remote.ok d ∧ apiCall r = Except.ok d) ∨ (∃ m, apiCall r = Except.error m) := by
  cases h : apiCall r with
  | ok d => exact Or.inl ⟨d, (apiCall_ok_iff r d).1 h, rfl⟩
  | error m => exact Or.inr ⟨m, rfl⟩

theorem includes_iff (hay needle : String) :
    includes hay needle = true ↔ needle.data <:+: hay.data := by
  unfold includes
  rw [List.any_eq_true, List.infix_iff_prefix_suffix]
  constructor
  · rintro ⟨u, hu, hp⟩
    exact ⟨u, List.isPrefixOf_iff_prefix.1 hp, (List.mem_tails _ _).1 hu⟩
  · rintro ⟨u, hp, hs⟩
    exact ⟨u, (List.mem_tails _ _).2 hs, List.isPrefixOf_iff_prefix.2 hp⟩

theorem includes_append_right (a b : String) : includes (a ++ b) b = true := by
  rw [includes_iff, String.data_append]
  exact List.infix_append' a.data b.data |> fun h => (List.suffix_append a.data b.data).isInfix

theorem includes_empty (a : String) : includes a "" = true := by
  rw [includes_iff]
  exact List.nil_infix

/-! ## The handlers, outcome by outcome -/

theorem addTask_eq_ok (s : Store) (now : Int) (iso : String) (t : Task)
    (h : trim s.newTask ≠ "") :
    addTask s now iso (Remote.ok t) = Except.ok
      { s with
        sent := s.sent ++ [Request.postTask (trim s.newTask) s.newTaskPriority
          (orNull s.newTaskDueDate)]
        tasks := t :: s.tasks
        newTask := ""
        newTaskPriority := "medium"
        newTaskDueDate := ""
        error := "" } := by
  unfold addTask
  rw [if_neg h]
  rfl

theorem addTask_eq_error (s : Store) (now : Int) (iso : String) (r : Remote Task) (m : String)
    (h : trim s.newTask ≠ "") (hr : apiCall r = Except.error m) :
    addTask s now iso r = Except.ok
      { s with
        sent := s.sent ++ [Request.postTask (trim s.newTask) s.newTaskPriority
          (orNull s.newTaskDueDate)]
        error := "Failed to add task: " ++ m
        tasks := Task.mk (TaskId.num now) (trim s.newTask) false s.newTaskPriority
          (orNull s.newTaskDueDate) iso :: s.tasks
        localStorage := some (Task.mk (TaskId.num now) (trim s.newTask) false s.newTaskPriority
          (orNull s.newTaskDueDate) iso :: s.tasks)
        newTask := ""
        newTaskPriority := "medium"
        newTaskDueDate := "" } := by
  unfold addTask
  rw [if_neg h]
  simp only [hr]
  rfl

theorem toggleTask_eq_none (s : Store) (id : TaskId) (r : Remote Task)
    (h : s.tasks.find? (fun t => t.id = id) = none) :
    toggleTask s id r = Except.ok s := by
  unfold toggleTask
  rw [h]
  rfl

theorem toggleTask_eq_ok (s : Store) (id : TaskId) (task u : Task)
    (h : s.tasks.find? (fun t => t.id = id) = some task) :
    toggleTask s id (Remote.ok u) = Except.ok
      { s with
        sent := s.sent ++ [Request.putCompleted id (!task.completed)]
        tasks := s.tasks.map (fun t => if t.id = id then u else t)
        error := "" } := by
  unfold toggleTask
  rw [h]
  rfl

theorem toggleTask_eq_error (s : Store) (id : TaskId) (task : Task) (r : Remote Task)
    (m : String) (h : s.tasks.find? (fun t => t.id = id) = some task)
    (hr : apiCall r = Except.error m) :
    toggleTask s id r = Except.ok
      { s with
        sent := s.sent ++ [Request.putCompleted id (!task.completed)]
        error := "Failed to update task: " ++ m
        tasks := s.tasks.map
          (fun t => if t.id = id then { t with completed := !t.completed } else t)
        localStorage := some (s.tasks.map
          (fun t => if t.id = id then { t with completed := !t.completed } else t)) } := by
  unfold toggleTask
  rw [h]
  simp only [hr]
  rfl

theorem deleteTask_eq_ok (s : Store) (id : TaskId) :
    deleteTask s id (Remote.ok ()) = Except.ok
      { s with
        sent := s.sent ++ [Request.deleteTask id]
        tasks := s.tasks.filter (fun t => t.id ≠ id)
        error := "" } := by
  rfl

theorem deleteTask_eq_error (s : Store) (id : TaskId) (r : Remote Unit) (m : String)
    (hr : apiCall r = Except.error m) :
    deleteTask s id r = Except.ok
      { s with
        sent := s.sent ++ [Request.deleteTask id]
        error := "Failed to delete task: " ++ m
        tasks := s.tasks.filter (fun t => t.id ≠ id)
        localStorage := some (s.tasks.filter (fun t => t.id ≠ id)) } := by
  unfold deleteTask
  simp only [hr]
  rfl

theorem saveEdit_eq_ok (s : Store) (u : Task) (h : trim s.editText ≠ "") :
    saveEdit s (Remote.ok u) = Except.ok
      { s with
        sent := s.sent ++ [Request.putFields s.editingTask (trim s.editText) s.editPriority
          (orNull s.editDueDate)]
        tasks := s.tasks.map (fun t => if some t.id = s.editingTask then u else t)
        editingTask := none
        editText := ""
        editPriority := "medium"
        editDueDate := ""
        error := "" } := by
  unfold saveEdit
  rw [if_neg h]
  rfl

theorem saveEdit_eq_error (s : Store) (r : Remote Task) (m : String)
    (h : trim s.editText ≠ "") (hr : apiCall r = Except.error m) :
    saveEdit s r = Except.ok
      { s with
        sent := s.sent ++ [Request.putFields s.editingTask (trim s.editText) s.editPriority
          (orNull s.editDueDate)]
        error := "Failed to update task: " ++ m
        tasks := s.tasks.map (fun t =>
          if some t.id = s.editingTask then
            { t with text := trim s.editText, priority := s.editPriority,
                     dueDate := orNull s.editDueDate }
          else t)
        localStorage := some (s.tasks.map (fun t =>
          if some t.id = s.editingTask then
            { t with text := trim s.editText, priority := s.editPriority,
                     dueDate := orNull s.editDueDate }
          else t))
        editingTask := none
        editText := ""
        editPriority := "medium"
        editDueDate := "" } := by
  unfold saveEdit
  rw [if_neg h]
  simp only [hr]
  rfl

theorem fetchTasks_eq_ok (s : Store) (data : List Task) :
    fetchTasks s (Remote.ok data) = Except.ok
      { s with
        sent := s.sent ++ [Request.getTasks
          (if s.filter ≠ "all" then some s.filter else none)
          (if s.searchTerm ≠ "" then some s.searchTerm else none)]
        tasks := data
        error := ""
        isLoading := false } := by
  rfl

theorem fetchTasks_eq_error (s : Store) (r : Remote (List Task)) (m : String)
    (hr : apiCall r = Except.error m) :
    fetchTasks s r = Except.ok
      { s with
        sent := s.sent ++ [Request.getTasks
          (if s.filter ≠ "all" then some s.filter else none)
          (if s.searchTerm ≠ "" then some s.searchTerm else none)]
        tasks := (match s.localStorage with
          | some savedTasks => savedTasks
          | none => s.tasks)
        error := "Failed to fetch tasks. Using offline mode."
        isLoading := false } := by
  unfold fetchTasks
  simp only [hr]
  cases hc : s.localStorage <;> rfl

theorem fetchStats_eq_error (s : Store) (today : String) (r : Remote Stats) (m : String)
    (hr : apiCall r = Except.error m) :
    fetchStats s today r = Except.ok
      { s with
        sent := s.sent ++ [Request.getStats]
        stats :=
          { total := s.tasks.length
            completed := (s.tasks.filter (fun t => t.completed)).length
            pending := (s.tasks.length : Int) - (s.tasks.filter (fun t => t.completed)).length
            overdue := (s.tasks.filter
              (fun t => dueDateSet t && dueBefore t today && !t.completed)).length } } := by
  unfold fetchStats
  simp only [hr]
  rfl

/-! ## Lists and predicates -/

theorem find?_map_of_preserved (p : Task → Bool) (f : Task → Task)
    (hp : ∀ t, p (f t) = p t) (l : List Task) :
    (l.map f).find? p = (l.find? p).map f := by
  induction l with
  | nil => rfl
  | cons a l ih =>
    simp only [List.map_cons, List.find?_cons, hp]
    cases p a
    · simpa using ih
    · rfl

/-- One `toggleTask` on a task that is present, against a server that honours
the update or fails: the call returns, the task is still found, and its
`completed` is the negation of what it was. -/
theorem toggleTask_step (s : Store) (id : TaskId) (srv : Bool → Remote Task)
    (hsrv : HonoursToggle id srv) (t0 : Task) (hf : findTask s.tasks id = some t0) :
    ∃ s1 t1, toggleTask s id (srv (!t0.completed)) = Except.ok s1 ∧
      findTask s1.tasks id = some t1 ∧ t1.completed = !t0.completed := by
  have hid : t0.id = id := by
    have := List.find?_some hf
    simpa using this
  rcases apiCall_cases (srv (!t0.completed)) with ⟨u, hu, _⟩ | ⟨m, hm⟩
  · obtain ⟨huid, huc⟩ := hsrv _ _ hu
    rw [hu, toggleTask_eq_ok s id t0 u hf]
    refine ⟨_, u, rfl, ?_, huc⟩
    show (s.tasks.map _).find? _ = _
    rw [find?_map_of_preserved]
    · unfold findTask at hf
      rw [hf]
      simp [hid]
    · intro t
      by_cases ht : t.id = id <;> simp [ht, huid]
  · rw [toggleTask_eq_error s id t0 _ m hf hm]
    refine ⟨_, { t0 with completed := !t0.completed }, rfl, ?_, rfl⟩
    show (s.tasks.map _).find? _ = _
    rw [find?_map_of_preserved]
    · unfold findTask at hf
      rw [hf]
      simp [hid]
    · intro t
      by_cases ht : t.id = id <;> simp [ht]

theorem overdue_iff_code (t : Task) (today : String) :
    (dueDateSet t && dueBefore t today && !t.completed) = true ↔ Overdue t today := by
  unfold dueDateSet dueBefore Overdue
  cases hd : t.dueDate with
  | none => simp
  | some d => cases hc : t.completed <;> simp

theorem keeps_iff_code (toLowerCase : String → String) (filter searchTerm : String)
    (t : Task) :
    ((filter == "all" || (filter == "completed" && t.completed) ||
        (filter == "active" && !t.completed)) &&
      includes (toLowerCase t.text) (toLowerCase searchTerm)) = true ↔
    Keeps toLowerCase filter searchTerm t := by
  unfold Keeps
  rw [Bool.and_eq_true, includes_iff]
  simp [or_assoc]

theorem map_id_of_preserved (f : Task → Task) (hf : ∀ t, (f t).id = t.id) (l : List Task) :
    (l.map f).map Task.id = l.map Task.id := by
  rw [List.map_map]
  apply List.map_congr_left
  intro t _
  exact hf t

theorem uniqueIds_cons (new : Task) (l : List Task) (h : UniqueIds l) :
    UniqueIds (new :: l) ↔ ∀ t ∈ l, t.id ≠ new.id := by
  unfold UniqueIds at *
  rw [List.map_cons, List.nodup_cons]
  constructor
  · rintro ⟨hn, _⟩ t ht heq
    exact hn (heq ▸ List.mem_map_of_mem Task.id ht)
  · intro hall
    refine ⟨?_, h⟩
    intro hmem
    obtain ⟨t, ht, heq⟩ := List.mem_map.1 hmem
    exact hall t ht heq

theorem uniqueIds_filter (p : Task → Bool) (l : List Task) (h : UniqueIds l) :
    UniqueIds (l.filter p) := by
  unfold UniqueIds at *
  exact List.Nodup.sublist ((List.filter_sublist l).map Task.id) h

/-! ## Calendar days and their ISO dates -/

theorem decimalDigit_toNat (n : Nat) : (decimalDigit n).toNat = 48 + n % 10 := by
  unfold decimalDigit
  have h : n % 10 < 10 := Nat.mod_lt n (by decide)
  generalize n % 10 = k at h
  interval_cases k <;> rfl

theorem utf16_decimalDigit (n : Nat) : utf16 (decimalDigit n) = [48 + n % 10] := by
  unfold utf16
  rw [decimalDigit_toNat, if_pos]
  omega

theorem codeUnits_iso (d : CalendarDay) :
    codeUnits d.iso =
      [48 + d.year / 1000 % 10, 48 + d.year / 100 % 10, 48 + d.year / 10 % 10,
        48 + d.year % 10, 45, 48 + d.month / 10 % 10, 48 + d.month % 10, 45,
        48 + d.day / 10 % 10, 48 + d.day % 10] := by
  have hdash : utf16 '-' = [45] := by decide
  simp only [codeUnits, CalendarDay.iso, List.foldr, utf16_decimalDigit, hdash,
    List.cons_append, List.nil_append]

theorem ltUnits_cons (a b : Nat) (as bs : List Nat) :
    ltUnits (a :: as) (b :: bs) = true ↔ a < b ∨ (a = b ∧ ltUnits as bs = true) := by
  rw [ltUnits]
  split_ifs with h1 h2
  · simp [h1]
  · constructor
    · intro h
      cases h
    · rintro (h | ⟨h, _⟩) <;> omega
  · have : a = b := by omega
    simp [this]

theorem two_digits (x : Nat) (hx : x ≤ 99) :
    ∃ p q, x / 10 % 10 = p ∧ x % 10 = q ∧ p ≤ 9 ∧ q ≤ 9 ∧ x = 10 * p + q := by
  refine ⟨x / 10 % 10, x % 10, rfl, rfl, ?_, ?_, ?_⟩ <;> omega

theorem four_digits (x : Nat) (hx : x ≤ 9999) :
    ∃ p q u v, x / 1000 % 10 = p ∧ x / 100 % 10 = q ∧ x / 10 % 10 = u ∧ x % 10 = v ∧
      p ≤ 9 ∧ q ≤ 9 ∧ u ≤ 9 ∧ v ≤ 9 ∧ x = 1000 * p + 100 * q + 10 * u + v := by
  have h1 : x / 100 = x / 10 / 10 := by rw [Nat.div_div_eq_div_mul]
  have h2 : x / 1000 = x / 10 / 10 / 10 := by
    rw [Nat.div_div_eq_div_mul, Nat.div_div_eq_div_mul]
  refine ⟨x / 1000 % 10, x / 100 % 10, x / 10 % 10, x % 10, rfl, rfl, rfl, rfl, ?_, ?_, ?_, ?_,
    ?_⟩ <;> omega

theorem ltUnits_two_digits (x y : Nat) (hx : x ≤ 99) (hy : y ≤ 99) (as bs : List Nat) :
    ltUnits ((48 + x / 10 % 10) :: (48 + x % 10) :: as)
        ((48 + y / 10 % 10) :: (48 + y % 10) :: bs) = true ↔
      x < y ∨ (x = y ∧ ltUnits as bs = true) := by
  obtain ⟨p, q, e1, e2, hp, hq, ex⟩ := two_digits x hx
  obtain ⟨p', q', e1', e2', hp', hq', ey⟩ := two_digits y hy
  rw [ltUnits_cons, ltUnits_cons, e1, e2, e1', e2']
  clear e1 e2 e1' e2' hx hy
  subst ex ey
  by_cases hl : ltUnits as bs = true
  · simp only [eq_true hl, and_true]
    omega
  · simp only [eq_false hl, and_false, or_false]
    omega

theorem ltUnits_four_digits (x y : Nat) (hx : x ≤ 9999) (hy : y ≤ 9999) (as bs : List Nat) :
    ltUnits ((48 + x / 1000 % 10) :: (48 + x / 100 % 10) :: (48 + x / 10 % 10) ::
          (48 + x % 10) :: as)
        ((48 + y / 1000 % 10) :: (48 + y / 100 % 10) :: (48 + y / 10 % 10) ::
          (48 + y % 10) :: bs) = true ↔
      x < y ∨ (x = y ∧ ltUnits as bs = true) := by
  obtain ⟨p, q, u, v, e1, e2, e3, e4, hp, hq, hu, hv, ex⟩ := four_digits x hx
  obtain ⟨p', q', u', v', e1', e2', e3', e4', hp', hq', hu', hv', ey⟩ := four_digits y hy
  rw [ltUnits_cons, ltUnits_cons, ltUnits_cons, ltUnits_cons, e1, e2, e3, e4, e1', e2', e3', e4']
  clear e1 e2 e3 e4 e1' e2' e3' e4' hx hy
  subst ex ey
  by_cases hl : ltUnits as bs = true
  · simp only [eq_true hl, and_true]
    omega
  · simp only [eq_false hl, and_false, or_false]
    omega

theorem jsLt_iso_lex (a b : CalendarDay) (hay : a.year ≤ 9999) (hby : b.year ≤ 9999)
    (ham : a.month ≤ 99) (hbm : b.month ≤ 99) (had : a.day ≤ 99) (hbd : b.day ≤ 99) :
    jsLt a.iso b.iso = true ↔
      a.year < b.year ∨ (a.year = b.year ∧
        (a.month < b.month ∨ (a.month = b.month ∧ a.day < b.day))) := by
  unfold jsLt
  rw [codeUnits_iso, codeUnits_iso, ltUnits_four_digits _ _ hay hby, ltUnits_cons,
    ltUnits_two_digits _ _ ham hbm, ltUnits_cons, ltUnits_two_digits _ _ had hbd]
  simp [ltUnits]

theorem daysBeforeYear_step (y1 y2 : Nat) (h : y1 < y2) :
    daysBeforeYear y1 + (if isLeapYear y1 then 366 else 365) ≤ daysBeforeYear y2 := by
  induction y2 with
  | zero => omega
  | succ n ih =>
    rcases Nat.lt_succ_iff_lt_or_eq.1 h with hlt | heq
    · have := ih hlt
      have : daysBeforeYear n ≤ daysBeforeYear (n + 1) := by
        rw [daysBeforeYear]
        omega
      omega
    · subst heq
      rw [daysBeforeYear]

theorem daysBeforeMonth_step (y m1 m2 : Nat) (h : m1 < m2) :
    daysBeforeMonth y m1 + daysInMonth y m1 ≤ daysBeforeMonth y m2 := by
  induction m2 with
  | zero => omega
  | succ n ih =>
    rcases Nat.lt_succ_iff_lt_or_eq.1 h with hlt | heq
    · have := ih hlt
      have : daysBeforeMonth y n ≤ daysBeforeMonth y (n + 1) := by
        rw [daysBeforeMonth]
        omega
      omega
    · subst heq
      rw [daysBeforeMonth]

theorem daysBeforeMonth_thirteen (y : Nat) :
    daysBeforeMonth y 13 = if isLeapYear y then 366 else 365 := by
  simp only [daysBeforeMonth, daysInMonth]
  split <;> rfl

/-- A well-formed day lies within its year. -/
theorem day_within_year (d : CalendarDay) (h : d.WellFormed) :
    1 ≤ daysBeforeMonth d.year d.month + d.day ∧
    daysBeforeMonth d.year d.month + d.day ≤ (if isLeapYear d.year then 366 else 365) := by
  obtain ⟨_, _, hm, hd1, hd2⟩ := h
  have h13 := daysBeforeMonth_step d.year d.month 13 (by omega)
  rw [daysBeforeMonth_thirteen] at h13
  constructor <;> omega

theorem ordinal_lt_iff_lex (a b : CalendarDay) (ha : a.WellFormed) (hb : b.WellFormed) :
    a.ordinal < b.ordinal ↔
      a.year < b.year ∨ (a.year = b.year ∧
        (a.month < b.month ∨ (a.month = b.month ∧ a.day < b.day))) := by
  have wa := day_within_year a ha
  have wb := day_within_year b hb
  obtain ⟨_, _, _, ha1, ha2⟩ := ha
  obtain ⟨_, _, _, hb1, hb2⟩ := hb
  unfold CalendarDay.ordinal
  rcases Nat.lt_trichotomy a.year b.year with hy | hy | hy
  · have := daysBeforeYear_step a.year b.year hy
    constructor
    · intro _
      exact Or.inl hy
    · intro _
      omega
  · rw [hy] at ha2 wa ⊢
    rcases Nat.lt_trichotomy a.month b.month with hm | hm | hm
    · have := daysBeforeMonth_step b.year a.month b.month hm
      constructor
      · intro _
        exact Or.inr ⟨rfl, Or.inl hm⟩
      · intro _
        omega
    · rw [hm]
      constructor
      · intro h
        exact Or.inr ⟨rfl, Or.inr ⟨rfl, by omega⟩⟩
      · rintro (h | ⟨_, h | ⟨_, h⟩⟩) <;> omega
    · have := daysBeforeMonth_step b.year b.month a.month hm
      constructor
      · intro h
        omega
      · rintro (h | ⟨_, h | ⟨h, _⟩⟩) <;> omega
  · have := daysBeforeYear_step b.year a.year hy
    constructor
    · intro h
      omega
    · rintro (h | ⟨h, _⟩) <;> omega

/-! ## A `localStorage` that can throw -/

theorem not_ok_of_error {α : Type} (r : Remote α) (m : String)
    (h : apiCall r = Except.error m) (d : α) : r ≠ Remote.ok d := by
  intro hr
  subst hr
  simp [apiCall] at h

/-- With a `localStorage` access that goes through, the handlers of this
section end as the handlers that take it to go through. -/
theorem fallible_agrees (s : Store) (now : Int) (iso : String) (id : TaskId)
    (rl : Remote (List Task)) (rt : Remote Task) (rd : Remote Unit) :
    (∀ s', fetchTasks s rl = Except.ok s' →
      Fallible.fetchTasks s rl StorageAccess.succeeds = Completion.returned s') ∧
    (∀ s', addTask s now iso rt = Except.ok s' →
      Fallible.addTask s now iso rt StorageAccess.succeeds = Completion.returned s') ∧
    (∀ s', toggleTask s id rt = Except.ok s' →
      Fallible.toggleTask s id rt StorageAccess.succeeds = Completion.returned s') ∧
    (∀ s', deleteTask s id rd = Except.ok s' →
      Fallible.deleteTask s id rd StorageAccess.succeeds = Completion.returned s') ∧
    (∀ s', saveEdit s rt = Except.ok s' →
      Fallible.saveEdit s rt StorageAccess.succeeds = Completion.returned s') := by
  refine ⟨?_, ?_, ?_, ?_, ?_⟩
  · intro s' h
    rcases apiCall_cases rl with ⟨d, rfl, _⟩ | ⟨m, hm⟩
    · rw [fetchTasks_eq_ok] at h
      injection h with h
      subst h
      rfl
    · rw [fetchTasks_eq_error s rl m hm] at h
      injection h with h
      subst h
      unfold Fallible.fetchTasks
      simp only [hm]
      cases hc : s.localStorage <;> rfl
  · intro s' h
    by_cases hb : trim s.newTask = ""
    · unfold addTask at h
      rw [if_pos hb] at h
      injection h with h
      subst h
      unfold Fallible.addTask
      rw [if_pos hb]
    · rcases apiCall_cases rt with ⟨d, rfl, _⟩ | ⟨m, hm⟩
      · rw [addTask_eq_ok s now iso d hb] at h
        injection h with h
        subst h
        unfold Fallible.addTask
        rw [if_neg hb]
        rfl
      · rw [addTask_eq_error s now iso rt m hb hm] at h
        injection h with h
        subst h
        unfold Fallible.addTask
        rw [if_neg hb]
        simp only [hm]
  · intro s' h
    cases hf : s.tasks.find? (fun t => t.id = id) with
    | none =>
      rw [toggleTask_eq_none s id rt hf] at h
      injection h with h
      subst h
      unfold Fallible.toggleTask
      rw [hf]
    | some task =>
      rcases apiCall_cases rt with ⟨d, rfl, _⟩ | ⟨m, hm⟩
      · rw [toggleTask_eq_ok s id task d hf] at h
        injection h with h
        subst h
        unfold Fallible.toggleTask
        rw [hf]
        rfl
      · rw [toggleTask_eq_error s id task rt m hf hm] at h
        injection h with h
        subst h
        unfold Fallible.toggleTask
        rw [hf]
        simp only [hm]
  · intro s' h
    rcases apiCall_cases rd with ⟨d, rfl, _⟩ | ⟨m, hm⟩
    · cases d
      rw [deleteTask_eq_ok] at h
      injection h with h
      subst h
      rfl
    · rw [deleteTask_eq_error s id rd m hm] at h
      injection h with h
      subst h
      unfold Fallible.deleteTask
      simp only [hm]
  · intro s' h
    by_cases hb : trim s.editText = ""
    · unfold saveEdit at h
      rw [if_pos hb] at h
      injection h with h
      subst h
      unfold Fallible.saveEdit
      rw [if_pos hb]
    · rcases apiCall_cases rt with ⟨d, rfl, _⟩ | ⟨m, hm⟩
      · rw [saveEdit_eq_ok s d hb] at h
        injection h with h
        subst h
        unfold Fallible.saveEdit
        rw [if_neg hb]
        rfl
      · rw [saveEdit_eq_error s rt m hb hm] at h
        injection h with h
        subst h
        unfold Fallible.saveEdit
        rw [if_neg hb]
        simp only [hm]

/-! ## Claims -/

/-- C1. When the text of the add form does not trim to empty, `addTask` leaves
the in-memory list equal to one new task followed by the prior list in its
original order: the head is the new task and the length grows by one. The new
task is the task the server returned when the remote create succeeds, and the
locally fabricated task when it fails. -/
theorem addTask_prepends (s : Store) (now : Int) (iso : String) (r : Remote Task)
    (h : trim s.newTask ≠ "") :
    ∃ s' new, addTask s now iso r = Except.ok s' ∧
      s'.tasks = new :: s.tasks ∧
      s'.tasks.head? = some new ∧
      s'.tasks.length = s.tasks.length + 1 ∧
      (∀ t, r = Remote.ok t → new = t) ∧
      (∀ m, apiCall r = Except.error m →
        new = Task.mk (TaskId.num now) (trim s.newTask) false s.newTaskPriority
          (orNull s.newTaskDueDate) iso) := by
  rcases apiCall_cases r with ⟨d, rfl, _⟩ | ⟨m, hm⟩
  · refine ⟨_, d, addTask_eq_ok s now iso d h, rfl, rfl, rfl, ?_, ?_⟩
    · intro t ht
      injection ht with ht
    · intro m hm
      simp [apiCall] at hm
  · refine ⟨_, _, addTask_eq_error s now iso r m h hm, rfl, rfl, rfl, ?_, ?_⟩
    · intro t ht
      subst ht
      simp [apiCall] at hm
    · intro _ _
      rfl

/-- C1 at the sample store, for a create the server accepts. -/
theorem addTask_prepends_witness :
    trim sampleStore.newTask ≠ "" ∧
    ∃ s' new, addTask sampleStore 1705312800000 "2024-01-15T10:00:00.000Z"
        (Remote.ok sampleTask) = Except.ok s' ∧
      s'.tasks = new :: sampleStore.tasks ∧
      s'.tasks.head? = some new ∧
      s'.tasks.length = sampleStore.tasks.length + 1 ∧
      (∀ t, Remote.ok sampleTask = Remote.ok t → new = t) ∧
      (∀ m, apiCall (Remote.ok sampleTask) = Except.error m →
        new = Task.mk (TaskId.num 1705312800000) (trim sampleStore.newTask) false
          sampleStore.newTaskPriority (orNull sampleStore.newTaskDueDate)
          "2024-01-15T10:00:00.000Z") :=
  ⟨by decide, addTask_prepends sampleStore 1705312800000 "2024-01-15T10:00:00.000Z"
    (Remote.ok sampleTask) (by decide)⟩

/-- C2. When the remote create answers with a non-2xx status and a JSON body
whose `error` field is the string `e`, and the text of the add form does not
trim to empty, `addTask` sets an error message that contains `e` (it is
`Failed to add task: ` followed by `e` when `e` is not empty), the in-memory
list gains exactly one locally fabricated task at its head (trimmed text,
`completed` false, the priority of the form, its due date or `null`, the id
`Date.now()`), and the `tasks` entry of `localStorage` holds that full updated
list. -/
theorem addTask_notOk_fallback (s : Store) (now : Int) (iso : String) (status : Nat)
    (e : String) (h : trim s.newTask ≠ "") :
    ∃ s' task, addTask s now iso (Remote.notOk status (some e)) = Except.ok s' ∧
      includes s'.error e = true ∧
      (e ≠ "" → s'.error = "Failed to add task: " ++ e) ∧
      s'.tasks = task :: s.tasks ∧
      s'.localStorage = some (task :: s.tasks) ∧
      task.id = TaskId.num now ∧
      task.text = trim s.newTask ∧
      task.completed = false ∧
      task.priority = s.newTaskPriority ∧
      task.dueDate = (if s.newTaskDueDate = "" then none else some s.newTaskDueDate) ∧
      task.createdAt = iso := by
  by_cases he : e = ""
  · subst he
    have hr : apiCall (Remote.notOk status (some "") : Remote Task)
        = Except.error ("HTTP " ++ toString status) := by simp [apiCall]
    refine ⟨_, _, addTask_eq_error s now iso _ _ h hr, includes_empty _, ?_, rfl, rfl, rfl, rfl,
      rfl, rfl, rfl, rfl⟩
    intro hne
    exact absurd rfl hne
  · have hr : apiCall (Remote.notOk status (some e) : Remote Task) = Except.error e := by
      simp [apiCall, he]
    exact ⟨_, _, addTask_eq_error s now iso _ _ h hr, includes_append_right _ _, fun _ => rfl,
      rfl, rfl, rfl, rfl, rfl, rfl, rfl, rfl⟩

/-- C2 at the sample store: HTTP 500 with the body `error: db down`. -/
theorem addTask_notOk_fallback_witness :
    trim sampleStore.newTask ≠ "" ∧
    ∃ s' task, addTask sampleStore 1705312800000 "2024-01-15T10:00:00.000Z"
        (Remote.notOk 500 (some "db down")) = Except.ok s' ∧
      includes s'.error "db down" = true ∧
      ("db down" ≠ "" → s'.error = "Failed to add task: " ++ "db down") ∧
      s'.tasks = task :: sampleStore.tasks ∧
      s'.localStorage = some (task :: sampleStore.tasks) ∧
      task.id = TaskId.num 1705312800000 ∧
      task.text = trim sampleStore.newTask ∧
      task.completed = false ∧
      task.priority = sampleStore.newTaskPriority ∧
      task.dueDate =
        (if sampleStore.newTaskDueDate = "" then none else some sampleStore.newTaskDueDate) ∧
      task.createdAt = "2024-01-15T10:00:00.000Z" :=
  ⟨by decide, addTask_notOk_fallback sampleStore 1705312800000 "2024-01-15T10:00:00.000Z" 500
    "db down" (by decide)⟩

/-- C3. When the text trims to the empty string, `addTask` and `saveEdit`
return the store they were given: the in-memory list, the error message and
`localStorage` are unchanged and no call is handed to `fetch`. The empty string
and a string of three blanks both trim to the empty string. -/
theorem blank_text_noop :
    (∀ (s : Store) (now : Int) (iso : String) (r : Remote Task),
      trim s.newTask = "" → addTask s now iso r = Except.ok s) ∧
    (∀ (s : Store) (r : Remote Task),
      trim s.editText = "" → saveEdit s r = Except.ok s) ∧
    trim "" = "" ∧ trim "   " = "" := by
  refine ⟨?_, ?_, by decide, by decide⟩
  · intro s now iso r h
    unfold addTask
    rw [if_pos h]
    rfl
  · intro s r h
    unfold saveEdit
    rw [if_pos h]
    rfl

/-- C3 at a store whose two text inputs hold white space only. -/
theorem blank_text_noop_witness :
    addTask blankStore 1705312800000 "2024-01-15T10:00:00.000Z" (Remote.ok sampleTask)
      = Except.ok blankStore ∧
    saveEdit blankStore (Remote.networkFailure "Failed to fetch") = Except.ok blankStore :=
  ⟨blank_text_noop.1 blankStore _ _ _ (by decide), blank_text_noop.2.1 blankStore _ (by decide)⟩

/-- C4. For a task list that holds a task of the given id, two `toggleTask`
calls in succession both return, the task is still found after each, and after
the second its `completed` field has its original value. Each of the two remote
updates may succeed, with the record replaced by the response of a server that
applies the update sent, or fail, with the local flip. -/
theorem toggleTask_twice (s : Store) (id : TaskId) (srv1 srv2 : Bool → Remote Task)
    (h1 : HonoursToggle id srv1) (h2 : HonoursToggle id srv2)
    (hmem : ∃ t ∈ s.tasks, t.id = id) :
    ∃ t0 s1 t1 s2 t2,
      findTask s.tasks id = some t0 ∧
      toggleTask s id (srv1 (!t0.completed)) = Except.ok s1 ∧
      findTask s1.tasks id = some t1 ∧
      toggleTask s1 id (srv2 (!t1.completed)) = Except.ok s2 ∧
      findTask s2.tasks id = some t2 ∧
      t2.completed = t0.completed := by
  obtain ⟨t, ht, htid⟩ := hmem
  have hsome : (findTask s.tasks id).isSome = true := by
    unfold findTask
    rw [List.find?_isSome]
    exact ⟨t, ht, by simpa using htid⟩
  obtain ⟨t0, hf0⟩ := Option.isSome_iff_exists.1 hsome
  obtain ⟨s1, t1, e1, hf1, hc1⟩ := toggleTask_step s id srv1 h1 t0 hf0
  obtain ⟨s2, t2, e2, hf2, hc2⟩ := toggleTask_step s1 id srv2 h2 t1 hf1
  refine ⟨t0, s1, t1, s2, t2, hf0, e1, hf1, e2, hf2, ?_⟩
  rw [hc2, hc1, Bool.not_not]

/-- C4 at the sample store: the first update succeeds, the second fails. -/
theorem toggleTask_twice_witness :
    HonoursToggle (TaskId.num 7) sampleToggleServer ∧
    HonoursToggle (TaskId.num 7) downServer ∧
    (∃ t ∈ sampleStore.tasks, t.id = TaskId.num 7) ∧
    ∃ t0 s1 t1 s2 t2,
      findTask sampleStore.tasks (TaskId.num 7) = some t0 ∧
      toggleTask sampleStore (TaskId.num 7) (sampleToggleServer (!t0.completed))
        = Except.ok s1 ∧
      findTask s1.tasks (TaskId.num 7) = some t1 ∧
      toggleTask s1 (TaskId.num 7) (downServer (!t1.completed)) = Except.ok s2 ∧
      findTask s2.tasks (TaskId.num 7) = some t2 ∧
      t2.completed = t0.completed :=
  have ha : HonoursToggle (TaskId.num 7) sampleToggleServer := by
    intro c u hu
    injection hu with hu
    subst hu
    exact ⟨rfl, rfl⟩
  have hb : HonoursToggle (TaskId.num 7) downServer := by
    intro c u hu
    cases hu
  have hm : ∃ t ∈ sampleStore.tasks, t.id = TaskId.num 7 :=
    ⟨sampleTask, List.mem_singleton.2 rfl, rfl⟩
  ⟨ha, hb, hm, toggleTask_twice sampleStore (TaskId.num 7) sampleToggleServer downServer ha hb hm⟩

/-- C5. When the stats request fails, `fetchStats` returns with stats computed
from the list: `total` is the length of the list, `completed` the number of
tasks with `completed` true, `pending` is `total - completed`, and `overdue`
the number of tasks that have a due date before `today` and are not completed.
For a list of a completed task followed by an open task due before `today` the
stats are 2, 1, 1, 1. -/
theorem fetchStats_local (s : Store) (today : String) (r : Remote Stats) (m : String)
    (hr : apiCall r = Except.error m) :
    ∃ s', fetchStats s today r = Except.ok s' ∧
      s'.stats.total = s.tasks.length ∧
      s'.stats.completed = s.tasks.countP (fun t => t.completed) ∧
      s'.stats.pending = s'.stats.total - s'.stats.completed ∧
      s'.stats.overdue = s.tasks.countP (fun t => decide (Overdue t today)) ∧
      (∀ a b d, s.tasks = [a, b] → a.completed = true → b.completed = false →
        b.dueDate = some d → d ≠ "" → jsLt d today = true →
        s'.stats = { total := 2, completed := 1, pending := 1, overdue := 1 }) := by
  have hov : s.tasks.countP (fun t => dueDateSet t && dueBefore t today && !t.completed)
      = s.tasks.countP (fun t => decide (Overdue t today)) := by
    apply List.countP_congr
    intro t _
    simp only [decide_eq_true_eq]
    exact overdue_iff_code t today
  refine ⟨_, fetchStats_eq_error s today r m hr, rfl, ?_, rfl, ?_, ?_⟩
  · show ((s.tasks.filter _).length : Int) = _
    rw [List.countP_eq_length_filter]
  · show ((s.tasks.filter _).length : Int) = _
    rw [← hov, List.countP_eq_length_filter]
  · intro a b d hs ha hb hd hne hlt
    simp [hs, ha, hb, hd, hne, hlt, dueDateSet, dueBefore]

/-- C5 at a list of a completed task and an open task due the day before. -/
theorem fetchStats_local_witness :
    apiCall (Remote.networkFailure "Failed to fetch" : Remote Stats)
      = Except.error "Failed to fetch" ∧
    ∃ s', fetchStats { sampleStore with tasks := [doneTask, sampleTask] } "2024-01-15"
        (Remote.networkFailure "Failed to fetch") = Except.ok s' ∧
      s'.stats = { total := 2, completed := 1, pending := 1, overdue := 1 } :=
  ⟨rfl, by
    obtain ⟨s', h1, _, _, _, _, h6⟩ :=
      fetchStats_local { sampleStore with tasks := [doneTask, sampleTask] } "2024-01-15"
        (Remote.networkFailure "Failed to fetch") "Failed to fetch" rfl
    exact ⟨s', h1, h6 doneTask sampleTask "2024-01-14" rfl rfl rfl rfl (by decide) (by decide)⟩⟩

/-- C6. `isOverdue task today` is true exactly when the task has a due date
(neither `null` nor the empty string), is not completed, and the due date is
before `today` under `<`. It is false for every completed task, whatever its
due date. -/
theorem isOverdue_iff (task : Task) (today : String) :
    (isOverdue task today = true ↔
      ∃ d, task.dueDate = some d ∧ d ≠ "" ∧ task.completed = false ∧ jsLt d today = true) ∧
    (task.completed = true → isOverdue task today = false) := by
  unfold isOverdue dueDateSet dueBefore
  cases hd : task.dueDate with
  | none => simp
  | some d => cases hc : task.completed <;> simp

/-- C6 at a completed task whose due date is in the past. -/
theorem isOverdue_iff_witness :
    jsLt "2024-01-14" "2024-01-15" = true ∧
    isOverdue { sampleTask with completed := true } "2024-01-15" = false ∧
    isOverdue sampleTask "2024-01-15" = true :=
  ⟨by decide, (isOverdue_iff { sampleTask with completed := true } "2024-01-15").2 rfl,
    (isOverdue_iff sampleTask "2024-01-15").1.2
      ⟨"2024-01-14", rfl, by decide, rfl, by decide⟩⟩

/-- C7. The filtered view is the input list filtered by the membership
condition: it is a sublist of the input in the input's relative order, and a
task is in it exactly when it is in the input and meets the condition. With
the filter `completed` and the empty search term, for a `toLowerCase` that maps
the empty string to itself, the view is the completed tasks in their original
order. -/
theorem filteredTasks_spec (toLowerCase : String → String) (tasks : List Task)
    (filter searchTerm : String) :
    filteredTasks toLowerCase tasks filter searchTerm
      = tasks.filter (fun t => decide (Keeps toLowerCase filter searchTerm t)) ∧
    (filteredTasks toLowerCase tasks filter searchTerm).Sublist tasks ∧
    (∀ t, t ∈ filteredTasks toLowerCase tasks filter searchTerm ↔
      t ∈ tasks ∧ Keeps toLowerCase filter searchTerm t) ∧
    (toLowerCase "" = "" →
      filteredTasks toLowerCase tasks "completed" "" = tasks.filter (fun t => t.completed)) := by
  have heq : ∀ (f q : String), filteredTasks toLowerCase tasks f q
      = tasks.filter (fun t => decide (Keeps toLowerCase f q t)) := by
    intro f q
    unfold filteredTasks
    apply List.filter_congr
    intro t _
    rw [Bool.eq_iff_iff, decide_eq_true_eq]
    exact keeps_iff_code toLowerCase f q t
  refine ⟨heq _ _, ?_, ?_, ?_⟩
  · rw [heq]
    exact List.filter_sublist tasks
  · intro t
    rw [heq, List.mem_filter, decide_eq_true_eq]
  · intro h0
    rw [heq]
    apply List.filter_congr
    intro t _
    rw [Bool.eq_iff_iff, decide_eq_true_eq]
    unfold Keeps
    rw [h0]
    simp [List.nil_infix]

/-- C7 at a two-task list, with ASCII lower-casing and a mixed-case search. -/
theorem filteredTasks_spec_witness :
    asciiLower "" = "" ∧
    filteredTasks asciiLower [doneTask, sampleTask] "completed" "" = [doneTask] ∧
    filteredTasks asciiLower [doneTask, sampleTask] "all" "MILK" = [sampleTask] :=
  ⟨rfl, ((filteredTasks_spec asciiLower [doneTask, sampleTask] "completed" "").2.2.2 rfl).trans
    (by decide), by decide⟩

/-- C8. Whatever the remote delete does, `deleteTask` returns, after handing
one DELETE call to `fetch`, with the in-memory list equal to the prior list
without the tasks of the given id, the others kept in their original order.
When no task has that id the list is unchanged. -/
theorem deleteTask_removes (s : Store) (id : TaskId) (r : Remote Unit) :
    ∃ s', deleteTask s id r = Except.ok s' ∧
      s'.tasks = s.tasks.filter (fun t => decide (t.id ≠ id)) ∧
      s'.tasks.Sublist s.tasks ∧
      (∀ t, t ∈ s'.tasks ↔ t ∈ s.tasks ∧ t.id ≠ id) ∧
      ((∀ t ∈ s.tasks, t.id ≠ id) → s'.tasks = s.tasks) ∧
      s'.sent = s.sent ++ [Request.deleteTask id] := by
  have hsub : (s.tasks.filter (fun t => decide (t.id ≠ id))).Sublist s.tasks :=
    List.filter_sublist s.tasks
  have hmem : ∀ t, t ∈ s.tasks.filter (fun t => decide (t.id ≠ id)) ↔ t ∈ s.tasks ∧ t.id ≠ id := by
    intro t
    rw [List.mem_filter, decide_eq_true_eq]
  have hall : (∀ t ∈ s.tasks, t.id ≠ id) →
      s.tasks.filter (fun t => decide (t.id ≠ id)) = s.tasks := by
    intro h
    rw [List.filter_eq_self]
    intro t ht
    exact decide_eq_true (h t ht)
  rcases apiCall_cases r with ⟨d, rfl, _⟩ | ⟨m, hm⟩
  · cases d
    exact ⟨_, deleteTask_eq_ok s id, rfl, hsub, hmem, hall, rfl⟩
  · exact ⟨_, deleteTask_eq_error s id r m hm, rfl, hsub, hmem, hall, rfl⟩

/-- C8 at the sample store, for an id no task has and a server that is down. -/
theorem deleteTask_removes_witness :
    ∃ s', deleteTask sampleStore (TaskId.str "no-such-id") (Remote.notOk 404 none)
        = Except.ok s' ∧ s'.tasks = sampleStore.tasks := by
  obtain ⟨s', h, _, _, _, hall, _⟩ :=
    deleteTask_removes sampleStore (TaskId.str "no-such-id") (Remote.notOk 404 none)
  exact ⟨s', h, hall (by decide)⟩

/-- C9. When the remote list request fails and `localStorage` holds a list
under `tasks`, `fetchTasks` returns, whatever the filter and the search term,
with the offline-mode error message and with the in-memory list equal to the
stored list as it is stored. -/
theorem fetchTasks_offline (s : Store) (r : Remote (List Task)) (m : String)
    (saved : List Task) (hr : apiCall r = Except.error m)
    (hc : s.localStorage = some saved) (filter searchTerm : String) :
    ∃ s', fetchTasks { s with filter := filter, searchTerm := searchTerm } r = Except.ok s' ∧
      s'.error = "Failed to fetch tasks. Using offline mode." ∧
      s'.tasks = saved ∧
      s'.localStorage = some saved := by
  refine ⟨_, fetchTasks_eq_error _ r m hr, rfl, ?_, hc⟩
  show (match s.localStorage with
    | some savedTasks => savedTasks
    | none => s.tasks) = saved
  rw [hc]

/-- C9 at a store with two cached tasks, the filter `completed` and a search
term: the whole cached list comes back. -/
theorem fetchTasks_offline_witness :
    ∃ s', fetchTasks { cachedStore with filter := "completed", searchTerm := "milk" }
        (Remote.networkFailure "Failed to fetch") = Except.ok s' ∧
      s'.error = "Failed to fetch tasks. Using offline mode." ∧
      s'.tasks = [doneTask, sampleTask] ∧
      s'.localStorage = some [doneTask, sampleTask] :=
  fetchTasks_offline cachedStore (Remote.networkFailure "Failed to fetch") "Failed to fetch"
    [doneTask, sampleTask] rfl rfl "completed" "milk"

/-- C10, the claim as stated fails: the remote create answers HTTP 500 and
`localStorage.setItem`, reached in the catch block of `addTask`, throws because
the quota is used up. The remote failure is caught, the exception of `setItem`
escapes the handler; the error message and the list are already set, the form
is not reset and `localStorage` is not written. -/
theorem addTask_raises_when_setItem_throws :
    Fallible.addTask sampleStore 1705312800000 "2024-01-15T10:00:00.000Z"
        (Remote.notOk 500 (some "db down")) (StorageAccess.throws "QuotaExceededError")
      = Completion.raised
          { sampleStore with
            sent := [Request.postTask "Walk the dog" "low" none]
            error := "Failed to add task: db down"
            tasks := [Task.mk (TaskId.num 1705312800000) "Walk the dog" false "low" none
              "2024-01-15T10:00:00.000Z", sampleTask] }
          "QuotaExceededError" ∧
    ¬ ∃ s', Fallible.addTask sampleStore 1705312800000 "2024-01-15T10:00:00.000Z"
        (Remote.notOk 500 (some "db down")) (StorageAccess.throws "QuotaExceededError")
      = Completion.returned s' := by
  have h : Fallible.addTask sampleStore 1705312800000 "2024-01-15T10:00:00.000Z"
        (Remote.notOk 500 (some "db down")) (StorageAccess.throws "QuotaExceededError")
      = Completion.raised
          { sampleStore with
            sent := [Request.postTask "Walk the dog" "low" none]
            error := "Failed to add task: db down"
            tasks := [Task.mk (TaskId.num 1705312800000) "Walk the dog" false "low" none
              "2024-01-15T10:00:00.000Z", sampleTask] }
          "QuotaExceededError" := by decide
  refine ⟨h, ?_⟩
  rintro ⟨s', hs'⟩
  rw [h] at hs'
  cases hs'

/-- C10, amended. For every store, every outcome of the remote call and
every behaviour of `localStorage`, each of `fetchTasks`, `addTask`,
`toggleTask`, `deleteTask` and `saveEdit` catches a remote failure: the
failure shows in the `error` field and the in-memory list is the local
equivalent (the cached list or the prior list for a load, the prior list
behind one new task for an add, the prior list with the task flipped or edited
in place for a toggle or an edit, the prior list without the given id for a
delete). The handler returns when the remote call succeeds, and when it fails
and the access to `localStorage` in the catch block goes through; the only
exception that can escape it is one that access throws. -/
theorem remote_failure_caught (s : Store) (now : Int) (iso : String) (id : TaskId)
    (rl : Remote (List Task)) (rt : Remote Task) (rd : Remote Unit) (a : StorageAccess) :
    (EndsWell (Fallible.fetchTasks s rl a) a ∧
     (∀ data, rl = Remote.ok data →
       ∃ s', Fallible.fetchTasks s rl a = Completion.returned s' ∧ s'.tasks = data) ∧
     (∀ m, apiCall rl = Except.error m →
       (Fallible.fetchTasks s rl a).store.error = "Failed to fetch tasks. Using offline mode." ∧
       ((Fallible.fetchTasks s rl a).store.tasks = s.tasks ∨
         s.localStorage = some (Fallible.fetchTasks s rl a).store.tasks))) ∧
    (EndsWell (Fallible.addTask s now iso rt a) a ∧
     (∀ u, rt = Remote.ok u → ∃ s', Fallible.addTask s now iso rt a = Completion.returned s') ∧
     (∀ m, apiCall rt = Except.error m → trim s.newTask ≠ "" →
       (Fallible.addTask s now iso rt a).store.error = "Failed to add task: " ++ m ∧
       (Fallible.addTask s now iso rt a).store.tasks =
         Task.mk (TaskId.num now) (trim s.newTask) false s.newTaskPriority
           (orNull s.newTaskDueDate) iso :: s.tasks)) ∧
    (EndsWell (Fallible.toggleTask s id rt a) a ∧
     (∀ u, rt = Remote.ok u → ∃ s', Fallible.toggleTask s id rt a = Completion.returned s') ∧
     (∀ m, apiCall rt = Except.error m → (∃ t ∈ s.tasks, t.id = id) →
       (Fallible.toggleTask s id rt a).store.error = "Failed to update task: " ++ m ∧
       (Fallible.toggleTask s id rt a).store.tasks = s.tasks.map
         (fun t => if t.id = id then { t with completed := !t.completed } else t))) ∧
    (EndsWell (Fallible.deleteTask s id rd a) a ∧
     (∀ u, rd = Remote.ok u → ∃ s', Fallible.deleteTask s id rd a = Completion.returned s') ∧
     (∀ m, apiCall rd = Except.error m →
       (Fallible.deleteTask s id rd a).store.error = "Failed to delete task: " ++ m ∧
       (Fallible.deleteTask s id rd a).store.tasks
         = s.tasks.filter (fun t => decide (t.id ≠ id)))) ∧
    (EndsWell (Fallible.saveEdit s rt a) a ∧
     (∀ u, rt = Remote.ok u → ∃ s', Fallible.saveEdit s rt a = Completion.returned s') ∧
     (∀ m, apiCall rt = Except.error m → trim s.editText ≠ "" →
       (Fallible.saveEdit s rt a).store.error = "Failed to update task: " ++ m ∧
       (Fallible.saveEdit s rt a).store.tasks = s.tasks.map (fun t =>
         if some t.id = s.editingTask then
           { t with text := trim s.editText, priority := s.editPriority,
                    dueDate := orNull s.editDueDate }
         else t))) := by
  refine ⟨?_, ?_, ?_, ?_, ?_⟩
  · unfold EndsWell Fallible.fetchTasks
    rcases apiCall_cases rl with ⟨d, rfl, hd⟩ | ⟨m, hm⟩
    · simp [apiCall]
    · have hne := not_ok_of_error rl m hm
      cases a with
      | throws e => simp [hm, hne, Completion.store]
      | succeeds => cases hc : s.localStorage <;> simp [hm, hne, hc, Completion.store]
  · unfold EndsWell Fallible.addTask
    by_cases hb : trim s.newTask = ""
    · simp [hb]
    · rcases apiCall_cases rt with ⟨d, rfl, hd⟩ | ⟨m, hm⟩
      · simp [hb, apiCall]
      · have hne := not_ok_of_error rt m hm
        cases a <;> simp [hb, hm, hne, Completion.store]
  · unfold EndsWell Fallible.toggleTask
    cases hf : s.tasks.find? (fun t => t.id = id) with
    | none =>
      have habs : ¬ ∃ t ∈ s.tasks, t.id = id := by
        rintro ⟨t, ht, htid⟩
        have := List.find?_eq_none.1 hf t ht
        simp [htid] at this
      simp [habs]
    | some task =>
      rcases apiCall_cases rt with ⟨d, rfl, hd⟩ | ⟨m, hm⟩
      · simp [apiCall]
      · have hne := not_ok_of_error rt m hm
        cases a <;> simp [hm, hne, Completion.store]
  · unfold EndsWell Fallible.deleteTask
    rcases apiCall_cases rd with ⟨d, rfl, hd⟩ | ⟨m, hm⟩
    · simp [apiCall]
    · have hne := not_ok_of_error rd m hm
      cases a <;> simp [hm, hne, Completion.store]
  · unfold EndsWell Fallible.saveEdit
    by_cases hb : trim s.editText = ""
    · simp [hb]
    · rcases apiCall_cases rt with ⟨d, rfl, hd⟩ | ⟨m, hm⟩
      · simp [hb, apiCall]
      · have hne := not_ok_of_error rt m hm
        cases a <;> simp [hb, hm, hne, Completion.store]

/-- C11, the claim as stated fails: two `addTask` calls whose remote create
fails, made within the same millisecond, fabricate the same id. The list before
the second call has pairwise distinct ids, the list after it does not. -/
theorem addTask_fallback_id_clash :
    ∃ s1 s2,
      addTask sampleStore 1705312800000 "2024-01-15T10:00:00.000Z"
        (Remote.networkFailure "Failed to fetch") = Except.ok s1 ∧
      UniqueIds s1.tasks ∧
      addTask { s1 with newTask := "Call Bob" } 1705312800000 "2024-01-15T10:00:00.000Z"
        (Remote.networkFailure "Failed to fetch") = Except.ok s2 ∧
      s2.tasks.map Task.id
        = [TaskId.num 1705312800000, TaskId.num 1705312800000, TaskId.num 7] ∧
      ¬ UniqueIds s2.tasks := by
  refine ⟨_, _, addTask_eq_error sampleStore _ _ _ "Failed to fetch" (by decide) rfl, ?_,
    addTask_eq_error _ _ _ _ "Failed to fetch" (by decide) rfl, rfl, ?_⟩
  · decide
  · decide

/-- C11, amended. Starting from a list whose ids are pairwise distinct:
`deleteTask` yields such a list on either path; `toggleTask` and `saveEdit`
yield such a list on the fallback path, and on the success path when the
response carries the id of the task updated; `addTask` with a text that does
not trim to empty puts one new task at the head, whose id is the id of the
server's task on success and `Date.now()` on the fallback path, and the ids
of the new list are pairwise distinct exactly when no task of the prior list
has the id of the new task. -/
theorem uniqueIds_preserved (s : Store) (h : UniqueIds s.tasks) :
    (∀ (now : Int) (iso : String) (r : Remote Task), trim s.newTask ≠ "" →
      ∃ s' new, addTask s now iso r = Except.ok s' ∧ s'.tasks = new :: s.tasks ∧
        (∀ u, r = Remote.ok u → new.id = u.id) ∧
        (∀ m, apiCall r = Except.error m → new.id = TaskId.num now) ∧
        (UniqueIds s'.tasks ↔ ∀ t ∈ s.tasks, t.id ≠ new.id)) ∧
    (∀ (id : TaskId) (r : Remote Task), (∀ u, r = Remote.ok u → u.id = id) →
      ∃ s', toggleTask s id r = Except.ok s' ∧ UniqueIds s'.tasks) ∧
    (∀ (r : Remote Task), (∀ u e, r = Remote.ok u → s.editingTask = some e → u.id = e) →
      ∃ s', saveEdit s r = Except.ok s' ∧ UniqueIds s'.tasks) ∧
    (∀ (id : TaskId) (r : Remote Unit),
      ∃ s', deleteTask s id r = Except.ok s' ∧ UniqueIds s'.tasks) := by
  refine ⟨?_, ?_, ?_, ?_⟩
  · intro now iso r hb
    rcases apiCall_cases r with ⟨d, rfl, _⟩ | ⟨m, hm⟩
    · refine ⟨_, d, addTask_eq_ok s now iso d hb, rfl, ?_, ?_, uniqueIds_cons d s.tasks h⟩
      · intro u hu
        injection hu with hu
        rw [hu]
      · intro m hm
        simp [apiCall] at hm
    · refine ⟨_, _, addTask_eq_error s now iso r m hb hm, rfl, ?_, ?_, uniqueIds_cons _ s.tasks h⟩
      · intro u hu
        subst hu
        simp [apiCall] at hm
      · intro _ _
        rfl
  · intro id r hid
    cases hf : s.tasks.find? (fun t => t.id = id) with
    | none => exact ⟨s, toggleTask_eq_none s id r hf, h⟩
    | some task =>
      rcases apiCall_cases r with ⟨d, rfl, _⟩ | ⟨m, hm⟩
      · refine ⟨_, toggleTask_eq_ok s id task d hf, ?_⟩
        show ((s.tasks.map _).map Task.id).Nodup
        rw [map_id_of_preserved]
        · exact h
        · intro t
          by_cases ht : t.id = id
          · simp [ht, hid d rfl]
          · simp [ht]
      · refine ⟨_, toggleTask_eq_error s id task r m hf hm, ?_⟩
        show ((s.tasks.map _).map Task.id).Nodup
        rw [map_id_of_preserved]
        · exact h
        · intro t
          by_cases ht : t.id = id <;> simp [ht]
  · intro r hid
    by_cases hb : trim s.editText = ""
    · refine ⟨s, ?_, h⟩
      unfold saveEdit
      rw [if_pos hb]
      rfl
    · rcases apiCall_cases r with ⟨d, rfl, _⟩ | ⟨m, hm⟩
      · refine ⟨_, saveEdit_eq_ok s d hb, ?_⟩
        show ((s.tasks.map _).map Task.id).Nodup
        rw [map_id_of_preserved]
        · exact h
        · intro t
          by_cases ht : some t.id = s.editingTask
          · simp [ht, hid d t.id rfl ht.symm]
          · simp [ht]
      · refine ⟨_, saveEdit_eq_error s r m hb hm, ?_⟩
        show ((s.tasks.map _).map Task.id).Nodup
        rw [map_id_of_preserved]
        · exact h
        · intro t
          by_cases ht : some t.id = s.editingTask <;> simp [ht]
  · intro id r
    rcases apiCall_cases r with ⟨d, rfl, _⟩ | ⟨m, hm⟩
    · cases d
      exact ⟨_, deleteTask_eq_ok s id, uniqueIds_filter _ s.tasks h⟩
    · exact ⟨_, deleteTask_eq_error s id r m hm, uniqueIds_filter _ s.tasks h⟩

/-- C11, amended, at the sample store: a fallback add whose `Date.now()` is
the id of no task keeps the ids pairwise distinct. -/
theorem uniqueIds_preserved_witness :
    UniqueIds sampleStore.tasks ∧
    ∃ s' new, addTask sampleStore 1705312800000 "2024-01-15T10:00:00.000Z"
        (Remote.notOk 500 (some "db down")) = Except.ok s' ∧
      s'.tasks = new :: sampleStore.tasks ∧ new.id = TaskId.num 1705312800000 ∧
      UniqueIds s'.tasks := by
  refine ⟨by decide, ?_⟩
  obtain ⟨s', new, h1, h2, _, h4, h5⟩ :=
    (uniqueIds_preserved sampleStore (by decide)).1 1705312800000
      "2024-01-15T10:00:00.000Z" (Remote.notOk 500 (some "db down")) (by decide)
  have hid : new.id = TaskId.num 1705312800000 := h4 "db down" rfl
  refine ⟨s', new, h1, h2, hid, h5.2 ?_⟩
  intro t ht
  rw [hid]
  have : t = sampleTask := List.mem_singleton.1 ht
  subst this
  decide

/-- C12. When the remote update fails and the edited text does not trim to
empty, `saveEdit` returns with a list of the same length in which, position by
position, every task keeps its `id`, `completed` and `createdAt`; a task whose
id is the one being edited gets the trimmed text, the priority and the due
date of the edit form (`null` for an empty due date), and every other task is
the task it was. The `tasks` entry of `localStorage` holds that list. -/
theorem saveEdit_fallback_frame (s : Store) (r : Remote Task) (m : String)
    (h : trim s.editText ≠ "") (hr : apiCall r = Except.error m) :
    ∃ s', saveEdit s r = Except.ok s' ∧
      s'.tasks.length = s.tasks.length ∧
      (∀ (i : Nat) (t : Task), s.tasks[i]? = some t → ∃ t' : Task, s'.tasks[i]? = some t' ∧
        t'.id = t.id ∧ t'.completed = t.completed ∧ t'.createdAt = t.createdAt ∧
        (some t.id = s.editingTask →
          t'.text = trim s.editText ∧ t'.priority = s.editPriority ∧
          t'.dueDate = (if s.editDueDate = "" then none else some s.editDueDate)) ∧
        (some t.id ≠ s.editingTask → t' = t)) ∧
      s'.localStorage = some s'.tasks := by
  refine ⟨_, saveEdit_eq_error s r m h hr, ?_, ?_, rfl⟩
  · show (s.tasks.map _).length = _
    rw [List.length_map]
  · intro i t hi
    show ∃ t' : Task, (s.tasks.map _)[i]? = some t' ∧ _
    rw [List.getElem?_map, hi]
    by_cases ht : some t.id = s.editingTask
    · refine ⟨{ t with text := trim s.editText, priority := s.editPriority,
                         dueDate := orNull s.editDueDate },
        by rw [Option.map_some', if_pos ht], rfl, rfl, rfl, fun _ => ⟨rfl, rfl, rfl⟩, ?_⟩
      intro hne
      exact absurd ht hne
    · refine ⟨t, by rw [Option.map_some', if_neg ht], rfl, rfl, rfl, ?_, fun _ => rfl⟩
      intro he
      exact absurd he ht

/-- C12 at the sample store: the edit of task 7 while the server is down. -/
theorem saveEdit_fallback_frame_witness :
    trim sampleStore.editText ≠ "" ∧
    ∃ s', saveEdit sampleStore (Remote.networkFailure "Failed to fetch") = Except.ok s' ∧
      s'.tasks = [{ sampleTask with text := "Buy oat milk", priority := "medium",
                                    dueDate := some "2024-01-20" }] ∧
      s'.localStorage = some s'.tasks := by
  refine ⟨by decide, ?_⟩
  obtain ⟨s', h1, h2, h3, h4⟩ :=
    saveEdit_fallback_frame sampleStore (Remote.networkFailure "Failed to fetch")
      "Failed to fetch" (by decide) rfl
  refine ⟨s', h1, ?_, h4⟩
  rw [saveEdit_eq_error sampleStore (Remote.networkFailure "Failed to fetch") "Failed to fetch"
    (by decide) rfl] at h1
  injection h1 with h1
  subst h1
  decide

/-- C13. For two well-formed days, the string comparison `<` of their ISO
dates `YYYY-MM-DD` holds exactly when the first day is earlier on the time
line than the second. So for a task whose `dueDate` is the ISO date of the day
`due`, the comparison `dueDate < today` that `isOverdue` and the overdue count
make holds exactly when `due` is earlier than the day of `today`. -/
theorem jsLt_iso_iff_earlier (due today : CalendarDay) (hd : due.WellFormed)
    (ht : today.WellFormed) :
    (jsLt due.iso today.iso = true ↔ due.ordinal < today.ordinal) ∧
    (∀ t : Task, t.dueDate = some due.iso →
      (dueBefore t today.iso = true ↔ due.ordinal < today.ordinal) ∧
      (isOverdue t today.iso = true ↔ t.completed = false ∧ due.ordinal < today.ordinal)) := by
  have hlt : jsLt due.iso today.iso = true ↔ due.ordinal < today.ordinal := by
    rw [ordinal_lt_iff_lex due today hd ht]
    have bd : ∀ d : CalendarDay, d.WellFormed → d.year ≤ 9999 ∧ d.month ≤ 99 ∧ d.day ≤ 99 := by
      intro d h
      obtain ⟨h1, h2, h3, h4, h5⟩ := h
      have : daysInMonth d.year d.month ≤ 31 := by
        unfold daysInMonth
        split <;> (try split) <;> omega
      omega
    obtain ⟨a1, a2, a3⟩ := bd due hd
    obtain ⟨b1, b2, b3⟩ := bd today ht
    exact jsLt_iso_lex due today a1 b1 a2 b2 a3 b3
  refine ⟨hlt, ?_⟩
  intro t hdue
  have hne : due.iso ≠ "" := by
    intro h
    have := congrArg String.length h
    simp [CalendarDay.iso, String.length] at this
  constructor
  · unfold dueBefore
    rw [hdue]
    exact hlt
  · unfold isOverdue dueDateSet dueBefore
    rw [hdue]
    cases hc : t.completed <;> simp [hne, hlt]

/-- C13 for a due date on the last day of 2023 and a today in 2024. -/
theorem jsLt_iso_iff_earlier_witness :
    (⟨2023, 12, 31⟩ : CalendarDay).WellFormed ∧ (⟨2024, 1, 15⟩ : CalendarDay).WellFormed ∧
    (⟨2023, 12, 31⟩ : CalendarDay).iso = "2023-12-31" ∧
    (⟨2024, 1, 15⟩ : CalendarDay).iso = "2024-01-15" ∧
    (jsLt "2023-12-31" "2024-01-15" = true ↔
      (⟨2023, 12, 31⟩ : CalendarDay).ordinal < (⟨2024, 1, 15⟩ : CalendarDay).ordinal) :=
  ⟨by decide, by decide, by decide, by decide,
    (jsLt_iso_iff_earlier ⟨2023, 12, 31⟩ ⟨2024, 1, 15⟩ (by decide) (by decide)).1⟩

end TodoApp
